import Mathlib

/-
Verification of the RVJump two-pass RISC-V assembler
(`riscv_assemble` in rvemu-c-bindings/rvemu-bindings/src/lib.rs).

The Rust function is embedded shallowly over `List Char` (Rust `&str`
contents), because the relevant Rust string operations (`replace`,
`split`, `trim`, `split_whitespace`, `contains`, `from_str_radix`) are
re-implemented here as structurally recursive, kernel-computable
functions.  The external JavaScript per-instruction encoder (the
`eval` of the `new Instruction(...)` script inside a fresh `JsRuntime`)
is an external collaborator and is modelled as an oracle parameter
`encode : List Char → Option (List Char)`: `some bits` models a
successful evaluation returning the string `bits`, `none` models an
evaluation error.  The one-time bootstrap of the runtime with
Instruction.js is modelled by the parameter `setupOk`.  Rust panics
(`expect` / `unwrap`) are modelled by a dedicated `panic` constructor
carrying the panic message, distinct from a normal return.
-/

namespace RVJump

/-- Rust `instructions.replace("\x5cr\x5cn", "\x5cn")`: left-to-right,
non-overlapping replacement of CRLF by LF. -/
def replaceCRLF : List Char → List Char
  | [] => []
  | '\r' :: '\n' :: rest => '\n' :: replaceCRLF rest
  | c :: rest => c :: replaceCRLF rest

/-- Rust split on the newline character: split at every newline; the result always
has one more piece than there are separators (an empty string yields one
empty piece). -/
def splitOnNl : List Char → List (List Char)
  | [] => [[]]
  | c :: rest =>
    if c = '\n' then [] :: splitOnNl rest
    else
      match splitOnNl rest with
      | [] => [[c]]
      | piece :: pieces => (c :: piece) :: pieces

/-- Rust `str::trim`: drop leading and trailing whitespace. -/
def rustTrim (cs : List Char) : List Char :=
  ((cs.dropWhile Char.isWhitespace).reverse.dropWhile Char.isWhitespace).reverse

/-- Lines 146-151 of lib.rs: normalize CRLF to LF, split on newlines,
trim every line, and drop the lines that are empty after trimming. -/
def normalize (src : List Char) : List (List Char) :=
  ((splitOnNl (replaceCRLF src)).map rustTrim).filter (fun l => l ≠ [])

/-- Rust `instr.contains(":")`. -/
def containsColon (cs : List Char) : Bool :=
  cs.any (fun c => c = ':')

/-- Rust `instr.split(":").collect::<Vec<_>>()[0]`: the prefix of the
line before its first colon. -/
def beforeColon (cs : List Char) : List Char :=
  cs.takeWhile (fun c => c ≠ ':')

/-- A label name, as stored in the `labels` hash map. -/
abbrev Label := List Char

/-- Rust `HashMap::get` on the association-list model of `labels`. -/
def lookupLabel : List (Label × Nat) → Label → Option Nat
  | [], _ => none
  | (k, v) :: rest, name => if k = name then some v else lookupLabel rest name

/-- Rust `HashMap::insert` on the association-list model of `labels`:
replaces the binding if the key is present, appends it otherwise. -/
def insertLabel : List (Label × Nat) → Label → Nat → List (Label × Nat)
  | [], name, off => [(name, off)]
  | (k, v) :: rest, name, off =>
    if k = name then (k, off) :: rest else (k, v) :: insertLabel rest name off

/-- Outcome of the label-discovery loop (lines 153-162 of lib.rs):
either the Rust code panics (the `.expect("Label name not found.")` on a
`HashMap::get` that returned `None`), or it completes with the filtered
instruction list and the label table. -/
inductive Pass1Out where
  | panic (msg : String)
  | ok (filtered : List (List Char)) (labels : List (Label × Nat))
deriving DecidableEq

/-- Lines 153-162 of lib.rs: one forward scan over the normalized lines.
A line containing a colon is treated as a label definition: the code
first calls `labels.get(label_name).expect("Label name not found.")` —
which panics whenever the name is NOT already present — and only then
inserts `(label_name, instructions_filtered.len() * 4)`.  A line with no
colon is appended to `instructions_filtered`. -/
def pass1 : List (List Char) → List (List Char) → List (Label × Nat) → Pass1Out
  | [], filtered, labels => Pass1Out.ok filtered labels
  | instr :: rest, filtered, labels =>
    if containsColon instr then
      match lookupLabel labels (beforeColon instr) with
      | none => Pass1Out.panic "Label name not found."
      | some _ =>
          pass1 rest filtered (insertLabel labels (beforeColon instr) (filtered.length * 4))
    else
      pass1 rest (filtered ++ [instr]) labels

/-- Maximal runs of non-whitespace characters (pieces of a
whitespace-separated split, empties included). -/
def splitWsChunks : List Char → List (List Char)
  | [] => [[]]
  | c :: rest =>
    if c.isWhitespace then [] :: splitWsChunks rest
    else
      match splitWsChunks rest with
      | [] => [[c]]
      | piece :: pieces => (c :: piece) :: pieces

/-- Rust `str::split_whitespace`: the nonempty maximal runs of
non-whitespace characters. -/
def splitWhitespace (cs : List Char) : List (List Char) :=
  (splitWsChunks cs).filter (fun t => t ≠ [])

/-- The script text built on lines 176-179 of lib.rs around one
normalized instruction line and handed to the JavaScript runtime. -/
def wrapHead : List Char := "\n;new Instruction(\x27".data

/-- Tail of the script text of lines 176-179 of lib.rs. -/
def wrapTail : List Char := "\x27, \x7b \x27ISA\x27: COPTS_ISA.RV32I \x7d).bin".data

/-- Line 176-179 of lib.rs: the full script submitted to the encoder for
one instruction line.  Note it is built from `instr`, the original
normalized line — not from the token vector patched in lines 167-172. -/
def wrapInstr (instr : List Char) : List Char :=
  wrapHead ++ instr ++ wrapTail

/-- Digit loop of Rust `u32::from_str_radix(s, 2)`: accumulate binary
digits, failing on a non-digit character or on u32 overflow. -/
def parseBinGo : List Char → Nat → Option Nat
  | [], acc => some acc
  | c :: rest, acc =>
    if c = '0' then
      if acc * 2 < 2 ^ 32 then parseBinGo rest (acc * 2) else none
    else if c = '1' then
      if acc * 2 + 1 < 2 ^ 32 then parseBinGo rest (acc * 2 + 1) else none
    else none

/-- Rust `u32::from_str_radix(s, 2)`: an optional sign, then at least
one binary digit, with unsigned overflow checking (a `-` sign only
parses when every digit is `0`). -/
def parseBin (s : List Char) : Option Nat :=
  match s with
  | '+' :: rest => if rest = [] then none else parseBinGo rest 0
  | '-' :: rest =>
      if rest ≠ [] ∧ rest.all (fun c => c = '0') then some 0 else none
  | [] => none
  | ds => parseBinGo ds 0

/-- Rust `u32::to_le_bytes`: the four bytes of a 32-bit word, least
significant first. -/
def toLeBytes (w : Nat) : List Nat :=
  [w % 256, w / 256 % 256, w / 65536 % 256, w / 16777216 % 256]

/-- Lines 167-172 of lib.rs: when the first whitespace token is `bne`,
the last token is looked up in the label table with
`.expect("label name not found 2.")`, which panics when the lookup
fails.  On success the offset is written into the local token vector —
a write that is never read afterwards, so only the panic is
observable. -/
def bnePanic (labels : List (Label × Nat)) (tokens : List (List Char)) : Option String :=
  if tokens.length > 0 ∧ tokens.headD [] = "bne".data then
    match lookupLabel labels (tokens.getLastD []) with
    | none => some "label name not found 2."
    | some _ => none
  else none

/-- Outcome of the encode loop (lines 164-188 of lib.rs): a Rust panic,
an early `return 0` with `*error_line = i + 1`, or completion with the
accumulated output bytes. -/
inductive Pass2Out where
  | panic (msg : String)
  | fail (errorLine : Nat)
  | done (bytes : List Nat)
deriving DecidableEq

/-- Lines 164-188 of lib.rs: iterate over ALL normalized lines (the loop
runs over `instrs`, not `instructions_filtered`) with a 0-based index;
for each line, perform the `bne` label lookup (which can panic), then
submit `wrapInstr instr` — the original line, never the patched token
vector — to the encoder.  On encoder success the result is parsed as
base 2 (`unwrap` panics if that fails) and its little-endian bytes are
appended; on encoder failure the loop stops with error line `i + 1`.
The second component collects the scripts submitted to the encoder, in
order. -/
def pass2 (encode : List Char → Option (List Char)) (labels : List (Label × Nat)) :
    List (List Char) → Nat → List Nat → Pass2Out × List (List Char)
  | [], _, acc => (Pass2Out.done acc, [])
  | instr :: rest, i, acc =>
    match bnePanic labels (splitWhitespace instr) with
    | some msg => (Pass2Out.panic msg, [])
    | none =>
      match encode (wrapInstr instr) with
      | some bits =>
        match parseBin bits with
        | some w =>
            let r := pass2 encode labels rest (i + 1) (acc ++ toLeBytes w)
            (r.1, wrapInstr instr :: r.2)
        | none => (Pass2Out.panic "called Option::unwrap() on a None value", [wrapInstr instr])
      | none => (Pass2Out.fail (i + 1), [wrapInstr instr])

/-- Observable result of one `riscv_assemble` call: either a Rust panic,
or a normal return carrying the returned length (`retval`), the bytes
written through `*out` (`none` when the pointer was never written), the
final `*error_line` value, and — for specification purposes — the list
of scripts submitted to the encoder. -/
inductive AsmRet where
  | panic (msg : String)
  | ret (retval : Nat) (out : Option (List Nat)) (errorLine : Nat) (calls : List (List Char))
deriving DecidableEq

/-- Lines 181-198 of lib.rs: how the encode-loop outcome maps to the
caller-visible result.  On loop completion the byte buffer is boxed,
its pointer stored in `*out`, and its length returned; on an encoder
failure the function returns 0 with `*error_line` already set and
`*out` untouched. -/
def finish : Pass2Out × List (List Char) → AsmRet
  | (Pass2Out.panic msg, _) => AsmRet.panic msg
  | (Pass2Out.fail e, calls) => AsmRet.ret 0 none e calls
  | (Pass2Out.done bytes, calls) => AsmRet.ret bytes.length (some bytes) 0 calls

/-- Lines 117-199 of lib.rs, `riscv_assemble`.  `*error_line` is zeroed
on entry.  `input = none` models a C string whose bytes are not valid
UTF-8 (`CString::into_string` fails): the function returns 0 at line
127 with `*error_line` still 0 and `*out` unwritten.  `setupOk = false`
models a failure of the one-time Instruction.js bootstrap eval (line
137), which returns 0 the same way.  Otherwise the source is
normalized, the label-discovery scan runs (it may panic), and then the
encode loop runs over all normalized lines. -/
def riscv_assemble (encode : List Char → Option (List Char)) (setupOk : Bool)
    (input : Option String) : AsmRet :=
  match input with
  | none => AsmRet.ret 0 none 0 []
  | some instructions =>
    match setupOk with
    | false => AsmRet.ret 0 none 0 []
    | true =>
      match pass1 (normalize instructions.data) [] [] with
      | Pass1Out.panic msg => AsmRet.panic msg
      | Pass1Out.ok _ labels =>
          finish (pass2 encode labels (normalize instructions.data) 0 [])

end RVJump

namespace RVJump

/- ### Helper lemmas -/

/-- Four output bytes per encoded word. -/
theorem flatten_toLeBytes_length (ws : List Nat) :
    ((ws.map toLeBytes).flatten).length = 4 * ws.length := by
  induction ws with
  | nil => simp
  | cons w ws ih => simp [toLeBytes, ih]; omega

/-- When the encode loop completes, the accumulated bytes are exactly the
little-endian renderings of the base-2 parses of the encoder results, one
word per input line, appended to the incoming accumulator. -/
theorem pass2_done_bytes (encode : List Char → Option (List Char))
    (labels : List (Label × Nat)) :
    ∀ (lines : List (List Char)) (i : Nat) (acc b : List Nat),
      (pass2 encode labels lines i acc).1 = Pass2Out.done b →
      ∃ ws : List Nat,
        List.Forall₂
          (fun l w => ∃ bits, encode (wrapInstr l) = some bits ∧ parseBin bits = some w)
          lines ws ∧
        b = acc ++ (ws.map toLeBytes).flatten := by
  intro lines
  induction lines with
  | nil =>
    intro i acc b h
    simp [pass2] at h
    exact ⟨[], List.Forall₂.nil, by simp [h]⟩
  | cons instr rest ih =>
    intro i acc b h
    cases hb : bnePanic labels (splitWhitespace instr) with
    | some msg => simp [pass2, hb] at h
    | none =>
      cases he : encode (wrapInstr instr) with
      | none => simp [pass2, hb, he] at h
      | some bits =>
        cases hp : parseBin bits with
        | none => simp [pass2, hb, he, hp] at h
        | some w =>
          simp only [pass2, hb, he, hp] at h
          obtain ⟨ws, hfa, hbytes⟩ := ih (i + 1) (acc ++ toLeBytes w) b h
          refine ⟨w :: ws, List.Forall₂.cons ⟨bits, he, hp⟩ hfa, ?_⟩
          simp [hbytes]

/-- One encode-loop step whose `bne` check passes and whose encoder call
fails: the loop stops with error line `i + 1` after submitting exactly
the script of this line. -/
theorem pass2_cons_fail (encode : List Char → Option (List Char))
    (labels : List (Label × Nat)) (l : List Char) (rest : List (List Char))
    (i : Nat) (acc : List Nat)
    (hb : bnePanic labels (splitWhitespace l) = none)
    (he : encode (wrapInstr l) = none) :
    pass2 encode labels (l :: rest) i acc = (Pass2Out.fail (i + 1), [wrapInstr l]) := by
  simp only [pass2, hb, he]

/-- One successful encode-loop step: the submitted script is recorded
and the bytes of the word are appended to the accumulator. -/
theorem pass2_cons_step (encode : List Char → Option (List Char))
    (labels : List (Label × Nat)) (l : List Char) (rest : List (List Char))
    (i : Nat) (acc : List Nat) (bits : List Char) (w : Nat)
    (hb : bnePanic labels (splitWhitespace l) = none)
    (he : encode (wrapInstr l) = some bits)
    (hp : parseBin bits = some w) :
    pass2 encode labels (l :: rest) i acc =
      ((pass2 encode labels rest (i + 1) (acc ++ toLeBytes w)).1,
        wrapInstr l :: (pass2 encode labels rest (i + 1) (acc ++ toLeBytes w)).2) := by
  simp only [pass2, hb, he, hp]

end RVJump

namespace RVJump

/- ### Claim theorems -/

/-- C1: the claim says that for the source
`"L1:\x5cnadd x1,x2,x3\x5cnbne x1,x2,L1"` assembly records byte offset 0
for `L1` and encodes the third instruction with final operand `0`.  The
code instead panics while scanning the very first line: defining `L1`
executes `labels.get("L1").expect("Label name not found.")` on an empty
map, so the call never reaches the encoding stage at all (and even if it
did, the patched token vector is never written into the text handed to
the encoder). -/
theorem c1_label_definition_panics :
    riscv_assemble (fun _ => some ['0']) true (some "L1:\nadd x1,x2,x3\nbne x1,x2,L1") =
      AsmRet.panic "Label name not found." := by decide

/-- C2: in the encode loop, the script submitted to the encoder is
always built from the original normalized line — the offset substitution
into the token vector is never incorporated — and on a completed run
every normalized non-empty line (label definitions included, since the
loop ranges over `instrs` rather than `instructions_filtered`) is
submitted exactly once, in order.  This holds for every encoder, label
table, start index and accumulator. -/
theorem c2_encoder_gets_original_lines (encode : List Char → Option (List Char))
    (labels : List (Label × Nat)) (lines : List (List Char)) (i : Nat) (acc b : List Nat)
    (h : (pass2 encode labels lines i acc).1 = Pass2Out.done b) :
    (pass2 encode labels lines i acc).2 = lines.map wrapInstr := by
  revert h
  induction lines generalizing i acc b with
  | nil => intro h; simp [pass2]
  | cons instr rest ih =>
    intro h
    cases hb : bnePanic labels (splitWhitespace instr) with
    | some msg => simp [pass2, hb] at h
    | none =>
      cases he : encode (wrapInstr instr) with
      | none => simp [pass2, hb, he] at h
      | some bits =>
        cases hp : parseBin bits with
        | none => simp [pass2, hb, he, hp] at h
        | some w =>
          simp only [pass2, hb, he, hp] at h ⊢
          simp [ih (i + 1) (acc ++ toLeBytes w) b h]

/-- C2 witness: a concrete completed run over two lines — one of them a
label-definition line — submits exactly the two wrapped original
lines. -/
theorem c2_encoder_gets_original_lines_witness :
    (pass2 (fun _ => some ['0']) [] ["L1:".data, "add x1,x2,x3".data] 0 []).2 =
      ["L1:".data, "add x1,x2,x3".data].map wrapInstr :=
  c2_encoder_gets_original_lines (fun _ => some ['0']) [] ["L1:".data, "add x1,x2,x3".data]
    0 [] [0, 0, 0, 0, 0, 0, 0, 0] (by decide)

/-- C3: the claim says a source defining the same label twice fails
deterministically with a duplicate-label condition.  The code does abort
deterministically on `"L1:\x5cnL1:\x5cnadd x1,x2,x3"`, but not with a
duplicate-label condition: it panics with "Label name not found." at the
FIRST definition of `L1` (the inverted lookup-then-insert), before any
duplication is even observable. -/
theorem c3_duplicate_label_panics_as_not_found :
    riscv_assemble (fun _ => some ['0']) true (some "L1:\nL1:\nadd x1,x2,x3") =
      AsmRet.panic "Label name not found." := by decide

/-- C4: the claim says `"bne x1,x2,NOPE"` fails with
`failing_line == 1` and empty output reported to the caller.  The code
instead panics inside `.expect("label name not found 2.")` during the
label lookup, so no error line is ever written and nothing is returned
to the caller. -/
theorem c4_undefined_label_reference_panics :
    riscv_assemble (fun _ => some ['0']) true (some "bne x1,x2,NOPE") =
      AsmRet.panic "label name not found 2." := by decide

/-- C5: for the source
`"add x1,x2,x3\x5cnBADMNEMONIC x,y,z\x5cnaddi x1,x2,3"`, whenever the
encoder accepts the first instruction (returning a base-2 parseable
string) and rejects the second, `riscv_assemble` returns 0 bytes with
`*out` unwritten and `*error_line = 2`: the 4 bytes of the first instruction
are discarded and the third instruction is never submitted. -/
theorem c5_fails_at_line_two_all_or_nothing (encode : List Char → Option (List Char))
    (bits : List Char) (w : Nat)
    (h1 : encode (wrapInstr "add x1,x2,x3".data) = some bits)
    (hw : parseBin bits = some w)
    (h2 : encode (wrapInstr "BADMNEMONIC x,y,z".data) = none) :
    riscv_assemble encode true (some "add x1,x2,x3\nBADMNEMONIC x,y,z\naddi x1,x2,3") =
      AsmRet.ret 0 none 2 [wrapInstr "add x1,x2,x3".data, wrapInstr "BADMNEMONIC x,y,z".data] := by
  have hn : normalize "add x1,x2,x3\nBADMNEMONIC x,y,z\naddi x1,x2,3".data =
      ["add x1,x2,x3".data, "BADMNEMONIC x,y,z".data, "addi x1,x2,3".data] := by decide
  have hp1 : pass1 ["add x1,x2,x3".data, "BADMNEMONIC x,y,z".data, "addi x1,x2,3".data] [] [] =
      Pass1Out.ok ["add x1,x2,x3".data, "BADMNEMONIC x,y,z".data, "addi x1,x2,3".data] [] := by
    decide
  have hb1 : bnePanic [] (splitWhitespace "add x1,x2,x3".data) = none := by decide
  have hb2 : bnePanic [] (splitWhitespace "BADMNEMONIC x,y,z".data) = none := by decide
  have hasm : riscv_assemble encode true
      (some "add x1,x2,x3\nBADMNEMONIC x,y,z\naddi x1,x2,3") =
      finish (pass2 encode []
        ["add x1,x2,x3".data, "BADMNEMONIC x,y,z".data, "addi x1,x2,3".data] 0 []) := by
    rw [riscv_assemble, hn, hp1]
  rw [hasm, pass2_cons_step encode [] _ _ 0 [] bits w hb1 h1 hw,
    pass2_cons_fail encode [] _ _ (0 + 1) (([] : List Nat) ++ toLeBytes w) hb2 h2]
  rfl

/-- C5 witness: a concrete encoder accepting exactly the wrapped first
instruction exhibits the failure at line 2 with no output. -/
theorem c5_fails_at_line_two_all_or_nothing_witness :
    riscv_assemble
        (fun t => if t = wrapInstr "add x1,x2,x3".data then some ['0'] else none) true
        (some "add x1,x2,x3\nBADMNEMONIC x,y,z\naddi x1,x2,3") =
      AsmRet.ret 0 none 2 [wrapInstr "add x1,x2,x3".data, wrapInstr "BADMNEMONIC x,y,z".data] :=
  c5_fails_at_line_two_all_or_nothing
    (fun t => if t = wrapInstr "add x1,x2,x3".data then some ['0'] else none)
    ['0'] 0 (by decide) (by decide) (by decide)

end RVJump

namespace RVJump

/-- C6 counterexample: the claim says invalid (non-UTF-8) input yields a
sentinel distinguishable from a failing line number and in particular
from the `failing_line == 0` success value.  In the code the early
return at line 127 leaves `*error_line` at 0 — exactly the success
value — and returns length 0, so the result is observably identical
(return value 0, error line 0) to a successful assembly of an empty
program. -/
theorem c6_invalid_input_has_no_sentinel :
    riscv_assemble (fun _ => none) true none = AsmRet.ret 0 none 0 [] ∧
      riscv_assemble (fun _ => none) true (some "") = AsmRet.ret 0 (some []) 0 [] := by
  exact ⟨by decide, by decide⟩

/-- C6 amended: invalid input IS rejected before any normalization,
label discovery or encoding (no encoder calls are made, no output is
written), but the call returns length 0 with `*error_line` left at 0 —
the success value — rather than any distinguishing sentinel. -/
theorem c6_invalid_input_rejected_early (encode : List Char → Option (List Char))
    (setupOk : Bool) :
    riscv_assemble encode setupOk none = AsmRet.ret 0 none 0 [] := rfl

/-- C7 counterexample: the claim says the returned byte length is never
a multiple of 4 on a failed call.  A failed call (here `error_line = 1`)
returns length 0, and 0 is a multiple of 4. -/
theorem c7_failed_call_returns_multiple_of_four :
    riscv_assemble (fun _ => none) true (some "BADMNEMONIC") =
        AsmRet.ret 0 none 1 [wrapInstr "BADMNEMONIC".data] ∧ (0 : Nat) % 4 = 0 := by
  exact ⟨by decide, rfl⟩

/-- C7 amended: on every non-panicking call, the returned length is a
multiple of 4 when `error_line = 0` (success), and is exactly 0 when
`error_line ≠ 0` (failure) — so the length of a failed call is 0, itself a
multiple of 4, rather than a non-multiple. -/
theorem c7_length_contract (encode : List Char → Option (List Char)) (setupOk : Bool)
    (input : Option String) (r : Nat) (o : Option (List Nat)) (e : Nat)
    (calls : List (List Char))
    (h : riscv_assemble encode setupOk input = AsmRet.ret r o e calls) :
    (e = 0 → r % 4 = 0) ∧ (e ≠ 0 → r = 0) := by
  cases input with
  | none =>
    simp [riscv_assemble] at h
    obtain ⟨h1, -, h3, -⟩ := h
    subst h1; subst h3
    exact ⟨fun _ => rfl, fun _ => rfl⟩
  | some s =>
    cases setupOk with
    | false =>
      simp [riscv_assemble] at h
      obtain ⟨h1, -, h3, -⟩ := h
      subst h1; subst h3
      exact ⟨fun _ => rfl, fun _ => rfl⟩
    | true =>
      simp only [riscv_assemble] at h
      cases hp1 : pass1 (normalize s.data) [] [] with
      | panic msg => rw [hp1] at h; simp at h
      | ok filtered labels =>
        rw [hp1] at h
        simp only at h
        rcases hp2 : pass2 encode labels (normalize s.data) 0 [] with ⟨o2, cs⟩
        rw [hp2] at h
        cases o2 with
        | panic msg => simp [finish] at h
        | fail e2 =>
          simp only [finish, AsmRet.ret.injEq] at h
          obtain ⟨h1, -, -, -⟩ := h
          subst h1
          exact ⟨fun _ => rfl, fun _ => rfl⟩
        | done bytes =>
          simp only [finish, AsmRet.ret.injEq] at h
          obtain ⟨h1, -, h3, -⟩ := h
          subst h1; subst h3
          obtain ⟨ws, -, hbytes⟩ :=
            pass2_done_bytes encode labels (normalize s.data) 0 [] bytes (by rw [hp2])
          refine ⟨fun _ => ?_, fun he0 => absurd rfl he0⟩
          rw [hbytes, List.nil_append, flatten_toLeBytes_length]
          exact Nat.mul_mod_right 4 ws.length

/-- C7 amended witness: a concrete successful call returns 4 bytes, a
multiple of 4. -/
theorem c7_length_contract_witness :
    ((0 : Nat) = 0 → (4 : Nat) % 4 = 0) ∧ ((0 : Nat) ≠ 0 → (4 : Nat) = 0) :=
  c7_length_contract (fun _ => some ['0']) true (some "add") 4 (some [0, 0, 0, 0]) 0
    [wrapInstr "add".data] (by decide)

end RVJump

namespace RVJump

/-- C8: on every successful assembly (a normal return with the output
pointer written and `error_line = 0`), the output buffer is exactly the
concatenation, in instruction order, of the little-endian 4-byte
renderings of the 32-bit words obtained by parsing each encoder result
as base 2, and its length is 4 times the number of encoded
instructions (every normalized line is encoded). -/
theorem c8_output_is_le_words (encode : List Char → Option (List Char)) (setupOk : Bool)
    (s : String) (r : Nat) (bytes : List Nat) (calls : List (List Char))
    (h : riscv_assemble encode setupOk (some s) = AsmRet.ret r (some bytes) 0 calls) :
    ∃ ws : List Nat,
      List.Forall₂
        (fun l w => ∃ bits, encode (wrapInstr l) = some bits ∧ parseBin bits = some w)
        (normalize s.data) ws ∧
      bytes = (ws.map toLeBytes).flatten ∧
      bytes.length = 4 * (normalize s.data).length := by
  cases setupOk with
  | false => simp [riscv_assemble] at h
  | true =>
    simp only [riscv_assemble] at h
    cases hp1 : pass1 (normalize s.data) [] [] with
    | panic msg => rw [hp1] at h; simp at h
    | ok filtered labels =>
      rw [hp1] at h
      simp only at h
      rcases hp2 : pass2 encode labels (normalize s.data) 0 [] with ⟨o2, cs⟩
      rw [hp2] at h
      cases o2 with
      | panic msg => simp [finish] at h
      | fail e2 => simp [finish] at h
      | done bytes2 =>
        simp only [finish, AsmRet.ret.injEq, Option.some.injEq] at h
        obtain ⟨-, h2, -, -⟩ := h
        subst h2
        obtain ⟨ws, hfa, hbytes⟩ :=
          pass2_done_bytes encode labels (normalize s.data) 0 [] bytes2 (by rw [hp2])
        rw [List.nil_append] at hbytes
        refine ⟨ws, hfa, hbytes, ?_⟩
        rw [hbytes, flatten_toLeBytes_length, hfa.length_eq]

/-- C8 witness: a concrete successful call with a single instruction and
an encoder returning the digits 101 produces the bytes of the word 5. -/
theorem c8_output_is_le_words_witness :
    ∃ ws : List Nat,
      List.Forall₂
        (fun l w => ∃ bits,
            (fun _ => some ['1', '0', '1']) (wrapInstr l) = some bits ∧ parseBin bits = some w)
        (normalize "add x1,x2,x3".data) ws ∧
      ([5, 0, 0, 0] : List Nat) = (ws.map toLeBytes).flatten ∧
      ([5, 0, 0, 0] : List Nat).length = 4 * (normalize "add x1,x2,x3".data).length :=
  c8_output_is_le_words (fun _ => some ['1', '0', '1']) true "add x1,x2,x3" 4 [5, 0, 0, 0]
    [wrapInstr "add x1,x2,x3".data] (by decide)

/-- C9: for every source all of whose raw lines (after CRLF
normalization, so under either line-ending convention) trim to nothing,
assembly succeeds: it returns length 0 with `*error_line = 0`, writes an
empty buffer, and never calls the encoder. -/
theorem c9_blank_source_succeeds_empty (encode : List Char → Option (List Char)) (s : String)
    (h : ∀ l ∈ splitOnNl (replaceCRLF s.data), rustTrim l = []) :
    riscv_assemble encode true (some s) = AsmRet.ret 0 (some []) 0 [] := by
  have hn : normalize s.data = [] := by
    unfold normalize
    rw [List.filter_eq_nil_iff]
    intro a ha
    simp only [List.mem_map] at ha
    obtain ⟨l, hl, rfl⟩ := ha
    simp [h l hl]
  rw [riscv_assemble, hn]
  rfl

/-- C9 witness: a source of only spaces, tabs and both line endings
assembles to the empty buffer with `error_line = 0`. -/
theorem c9_blank_source_succeeds_empty_witness :
    riscv_assemble (fun _ => none) true (some "  \n\t\r\n ") = AsmRet.ret 0 (some []) 0 [] :=
  c9_blank_source_succeeds_empty (fun _ => none) "  \n\t\r\n " (by decide)

/-- C10: assembly is deterministic.  The embedding of `riscv_assemble`
is a pure function of the source text and of the (deterministic, per the
interface contract) external encoder: the Rust function keeps no state
across calls — the JsRuntime is created afresh inside each invocation —
so two calls on byte-identical input with the same encoder behaviour
yield identical results (same output bytes and same `error_line`). -/
theorem c10_deterministic (encode : List Char → Option (List Char)) (setupOk : Bool)
    (src1 src2 : String) (h : src1 = src2) :
    riscv_assemble encode setupOk (some src1) = riscv_assemble encode setupOk (some src2) := by
  rw [h]

/-- C10 witness: two identical calls on a concrete source agree. -/
theorem c10_deterministic_witness :
    riscv_assemble (fun _ => some ['0']) true (some "add x1,x2,x3") =
      riscv_assemble (fun _ => some ['0']) true (some "add x1,x2,x3") :=
  c10_deterministic (fun _ => some ['0']) true "add x1,x2,x3" "add x1,x2,x3" rfl

end RVJump
